import Mathlib

/-!
# ShareEat — verification of the donation matching and lifecycle core

A shallow embedding of the ShareEat backend's donation matching, volunteer
assignment and lifecycle state-machine code, together with proofs of the
specified properties.  Timestamps are modelled as rational numbers of hours;
Python `Decimal`/`float` arithmetic is modelled with `ℚ`.

Sources embedded:
* `apps/inventory/models.py` — `FoodItem` (urgency, freshness, expiry),
  `Donation.cancel_donation`, `DonationItem`.
* `apps/inventory/views.py` — `FoodItemViewSet.request_item` (inventory
  claim), `DonationViewSet.get_queryset` (auto-cancel sweep),
  `DonationViewSet.confirm_receipt`.
* `apps/volunteers/views.py` — `DeliveryRequestViewSet.accept` / `.reject`.
* `utils/algorithms.py` — `FoodMatchingAlgorithm`.
* `utils/routing.py` — `DeliveryPlanner.find_optimal_volunteer`.
-/

namespace ShareEat

/-- `FoodItem.CONDITION_CHOICES` from `inventory/models.py`. -/
inductive Condition where
  | excellent
  | good
  | fair
  | poor
deriving DecidableEq, Repr

/-- `FoodItem.URGENCY_LEVELS` from `inventory/models.py`. -/
inductive Urgency where
  | low
  | medium
  | high
  | critical
deriving DecidableEq, Repr

/-- The `condition_scores` dictionary inside `FoodItem.freshness_score`
(`inventory/models.py`); the `.get(condition, 0)` default is unreachable
because the condition enum is total. -/
def condition_scores : Condition → ℚ
  | .excellent => 30
  | .good => 20
  | .fair => 10
  | .poor => 0

/-- Embedding of a `FoodItem` row (`inventory/models.py`).  Timestamps are
rationals measured in hours; `category_shelf_life` is the related
`FoodCategory.average_shelf_life_hours`; `donor_has_coords` abstracts the
donor profile's latitude/longitude being present (used by the matching
engine's locality bonus). -/
structure FoodItem where
  quantity : ℚ
  condition : Condition
  expiry_date : ℚ
  is_available : Bool
  urgency_level : Urgency
  category_name : String
  category_shelf_life : ℚ
  donor_has_coords : Bool
deriving DecidableEq, Repr

/-- `FoodItem.calculate_urgency` (`inventory/models.py` lines 102–113):
buckets the signed number of hours until expiry. -/
def calculate_urgency (it : FoodItem) (now : ℚ) : Urgency :=
  let time_until_expiry := it.expiry_date - now
  if time_until_expiry ≤ 2 then .critical
  else if time_until_expiry ≤ 6 then .high
  else if time_until_expiry ≤ 24 then .medium
  else .low

/-- `FoodItem.hours_until_expiry` (`inventory/models.py` lines 115–121):
returns 0 for unavailable items, otherwise the clamped time to expiry. -/
def hours_until_expiry (it : FoodItem) (now : ℚ) : ℚ :=
  if !it.is_available then 0
  else max 0 (it.expiry_date - now)

/-- `FoodItem.is_expired` (`inventory/models.py` lines 123–126). -/
def is_expired (it : FoodItem) (now : ℚ) : Bool :=
  it.expiry_date ≤ now

/-- `FoodItem.freshness_score` (`inventory/models.py` lines 128–149). -/
def freshness_score (it : FoodItem) (now : ℚ) : ℚ :=
  if is_expired it now then 0
  else
    let hours_left := hours_until_expiry it now
    let max_hours := it.category_shelf_life
    let time_score := (hours_left / max_hours) * 70
    let condition_score := condition_scores it.condition
    min 100 (time_score + condition_score)

/-- Rank of an urgency level, used to state monotonicity: higher rank means
more urgent. -/
def urgencyRank : Urgency → ℕ
  | .low => 0
  | .medium => 1
  | .high => 2
  | .critical => 3

/-! ## Stable descending sort

Python's `list.sort(key=..., reverse=True)` is a stable sort: the list ends
up in non-increasing key order, and elements with equal keys keep their
original relative order.  Both `FoodMatchingAlgorithm.find_best_matches` and
`DeliveryPlanner.find_optimal_volunteer` rely on it.  We model it with a
stable insertion sort on a rational-valued key. -/

/-- Insert `a` into an already descending-sorted list, before the first
element whose key is ≤ the key of `a` (so `a` lands *before* later elements
with an equal key, preserving stability with respect to the original
order in `sortDescBy`). -/
def insertDesc (f : α → ℚ) (a : α) : List α → List α
  | [] => [a]
  | b :: l => if f b ≤ f a then a :: b :: l else b :: insertDesc f a l

/-- Stable sort into non-increasing key order, the behaviour of Python's
`list.sort(key=f, reverse=True)`. -/
def sortDescBy (f : α → ℚ) : List α → List α
  | [] => []
  | a :: l => insertDesc f a (sortDescBy f l)

theorem perm_insertDesc (f : α → ℚ) (a : α) (l : List α) :
    (insertDesc f a l).Perm (a :: l) := by
  induction l with
  | nil => simp [insertDesc]
  | cons b t ih =>
    simp only [insertDesc]
    split
    · exact List.Perm.refl _
    · exact (List.Perm.cons b ih).trans (List.Perm.swap a b t)

theorem perm_sortDescBy (f : α → ℚ) (l : List α) :
    (sortDescBy f l).Perm l := by
  induction l with
  | nil => simp [sortDescBy]
  | cons a t ih =>
    exact (perm_insertDesc f a (sortDescBy f t)).trans (List.Perm.cons a ih)

theorem pairwise_insertDesc (f : α → ℚ) (a : α) (l : List α)
    (h : l.Pairwise (fun x y => f y ≤ f x)) :
    (insertDesc f a l).Pairwise (fun x y => f y ≤ f x) := by
  induction l with
  | nil => simp [insertDesc]
  | cons b t ih =>
    simp only [insertDesc]
    split
    · rename_i hba
      refine List.Pairwise.cons ?_ h
      intro x hx
      rcases List.mem_cons.mp hx with rfl | hx
      · exact hba
      · exact le_trans (List.rel_of_pairwise_cons h hx) hba
    · rename_i hba
      push_neg at hba
      have ht := List.Pairwise.of_cons h
      refine List.Pairwise.cons ?_ (ih ht)
      intro x hx
      have hx' := (perm_insertDesc f a t).mem_iff.mp hx
      rcases List.mem_cons.mp hx' with rfl | hx'
      · exact le_of_lt hba
      · exact List.rel_of_pairwise_cons h hx'

theorem pairwise_sortDescBy (f : α → ℚ) (l : List α) :
    (sortDescBy f l).Pairwise (fun x y => f y ≤ f x) := by
  induction l with
  | nil => simp [sortDescBy]
  | cons a t ih => exact pairwise_insertDesc f a (sortDescBy f t) ih

/-- The head of the stable descending sort of a nonempty list is the *first*
element of the original list attaining the maximal key. -/
theorem sortDescBy_head (f : α → ℚ) (l : List α) (hne : l ≠ []) :
    ∃ h t, sortDescBy f l = h :: t ∧
      (∃ l₁ l₂, l = l₁ ++ h :: l₂ ∧ ∀ x ∈ l₁, f x < f h) ∧
      (∀ x ∈ l, f x ≤ f h) := by
  induction l with
  | nil => exact absurd rfl hne
  | cons a t ih =>
    cases t with
    | nil =>
      refine ⟨a, [], by simp [sortDescBy, insertDesc], ⟨[], [], by simp⟩, ?_⟩
      intro x hx
      simp only [List.mem_singleton] at hx
      simp [hx]
    | cons b t' =>
      obtain ⟨h', t'', hsort, ⟨l₁, l₂, hdec, hpre⟩, hmax⟩ :=
        ih (by simp)
      simp only [sortDescBy] at hsort ⊢
      rw [hsort]
      simp only [insertDesc]
      by_cases hcmp : f h' ≤ f a
      · refine ⟨a, h' :: t'', by simp [hcmp], ⟨[], b :: t', by simp, by simp⟩, ?_⟩
        intro x hx
        rcases List.mem_cons.mp hx with rfl | hx
        · exact le_refl _
        · exact le_trans (hmax x hx) hcmp
      · push_neg at hcmp
        refine ⟨h', insertDesc f a t'', by simp [not_le.mpr hcmp], ?_, ?_⟩
        · exact ⟨a :: l₁, l₂, by rw [hdec]; simp, by
            intro x hx
            rcases List.mem_cons.mp hx with rfl | hx
            · exact hcmp
            · exact hpre x hx⟩
        · intro x hx
          rcases List.mem_cons.mp hx with rfl | hx
          · exact le_of_lt hcmp
          · exact hmax x hx

/-! ## Recipients and the Food Matching Engine (`utils/algorithms.py`) -/

/-- A `RecipientNeed` row (`recipients/models.py`): the fields used by the
matching engine. -/
structure RecipientNeed where
  food_category : String
  is_active : Bool
deriving DecidableEq, Repr

/-- A `RecipientProfile` row (`recipients/models.py`): the fields used by the
matching engine.  `has_coords` abstracts the latitude being present (and
truthy), as tested by `calculate_match_score`. -/
structure RecipientProfile where
  is_verified : Bool
  capacity : ℤ
  current_occupancy : ℤ
  has_coords : Bool
  needs : List RecipientNeed
deriving DecidableEq, Repr

/-- `RecipientProfile.available_capacity` (`recipients/models.py`
lines 147–150). -/
def available_capacity (r : RecipientProfile) : ℤ :=
  max 0 (r.capacity - r.current_occupancy)

/-- `RecipientProfile.can_accept_donation` (`recipients/models.py`
lines 159–164). -/
def can_accept_donation (r : RecipientProfile) (quantity : ℚ) : Bool :=
  r.is_verified && decide (quantity ≤ (available_capacity r : ℚ))

/-- The `urgency_scores` dictionary inside
`FoodMatchingAlgorithm.calculate_match_score` (`utils/algorithms.py`). -/
def urgency_scores : Urgency → ℚ
  | .critical => 40
  | .high => 30
  | .medium => 20
  | .low => 10

/-- `FoodMatchingAlgorithm.calculate_match_score`
(`utils/algorithms.py` lines 13–45). -/
def calculate_match_score (food_item : FoodItem) (recipient : RecipientProfile) : ℚ :=
  let urgencyComponent := urgency_scores food_item.urgency_level
  let capacityComponent :=
    if 0 < available_capacity recipient then
      min 1 (food_item.quantity / (available_capacity recipient : ℚ)) * 30
    else 0
  let localityComponent :=
    if food_item.donor_has_coords && recipient.has_coords then (20 : ℚ) else 0
  let needsComponent :=
    if recipient.needs.any (fun n =>
        n.is_active && (n.food_category.toLower == food_item.category_name.toLower)) then
      (10 : ℚ)
    else 0
  urgencyComponent + capacityComponent + localityComponent + needsComponent

/-- `FoodMatchingAlgorithm.find_best_matches`
(`utils/algorithms.py` lines 47–67).  The recipient table is passed in as a
list; the queryset filter `is_verified=True, capacity__gt=0` becomes a list
filter, the scoring loop a `filterMap`, and `matches.sort(...); [:max]` the
stable descending sort plus `take`. -/
def find_best_matches (food_item : FoodItem) (recipients : List RecipientProfile)
    (max_matches : ℕ := 5) : List (RecipientProfile × ℚ) :=
  let candidates := recipients.filter fun r => r.is_verified && decide (0 < r.capacity)
  let scored := candidates.filterMap fun r =>
    if can_accept_donation r food_item.quantity then
      some (r, calculate_match_score food_item r)
    else none
  (sortDescBy Prod.snd scored).take max_matches

/-! ## Volunteers and the Volunteer Selection Engine (`utils/routing.py`) -/

/-- A `VolunteerProfile` row (`volunteers/models.py`): the fields used by the
selection engine and the delivery-request lifecycle.  `location` is
`none` when the profile has no (truthy) latitude/longitude. -/
structure VolunteerProfile where
  vid : ℕ
  is_available : Bool
  is_verified : Bool
  rating : ℚ
  total_deliveries : ℕ
  has_vehicle : Bool
  location : Option (ℚ × ℚ)
deriving DecidableEq, Repr

/-- The volunteer→donor pickup distance used by
`DeliveryPlanner.find_optimal_volunteer`: the routing collaborator's
distance when the volunteer has a known location, otherwise the 100 km
penalty distance. -/
def pickup_distance (route : (ℚ × ℚ) → (ℚ × ℚ) → ℚ) (donorLoc : ℚ × ℚ)
    (v : VolunteerProfile) : ℚ :=
  match v.location with
  | some lv => route lv donorLoc
  | none => 100

/-- The per-candidate scoring block of
`DeliveryPlanner.find_optimal_volunteer` (`utils/routing.py`
lines 182–203). -/
def volunteer_score (pickupDistance : ℚ) (v : VolunteerProfile) : ℚ :=
  let score : ℚ := 100
  let score := if 20 < pickupDistance then score - 50
    else if 10 < pickupDistance then score - 30
    else if 5 < pickupDistance then score - 10
    else score
  let score := score + v.rating * 5
  let score := if 50 < v.total_deliveries then score + 20 else score
  if v.has_vehicle then score + 15 else score

/-- `DeliveryPlanner.find_optimal_volunteer` (`utils/routing.py`
lines 147–211).  `route` is the external routing collaborator
(`RouteOptimizer.get_route`'s distance), `donorLoc`/`recipientLoc` the two
endpoint coordinates.  The donor→recipient leg is computed once but (as in
the source) does not enter the score.  Returns `(none, 0)` when the pool is
empty or every candidate fails the availability/verification filter,
otherwise the first highest-scoring pair of the stable descending sort. -/
def find_optimal_volunteer (route : (ℚ × ℚ) → (ℚ × ℚ) → ℚ)
    (donorLoc recipientLoc : ℚ × ℚ) (available_volunteers : List VolunteerProfile) :
    Option VolunteerProfile × ℚ :=
  if available_volunteers = [] then (none, 0)
  else
    let _delivery_distance := route donorLoc recipientLoc
    let scores := (available_volunteers.filter fun v =>
        v.is_available && v.is_verified).map fun v =>
      (v, volunteer_score (pickup_distance route donorLoc v) v)
    match sortDescBy Prod.snd scores with
    | [] => (none, 0)
    | best :: _ => (some best.1, best.2)

/-! ## Donation lifecycle and delivery requests -/

/-- `Donation.STATUS_CHOICES` (`inventory/models.py`). -/
inductive DStatus where
  | pending
  | confirmed
  | picked_up
  | in_transit
  | delivered
  | completed
  | cancelled
  | pending_manual_assignment
deriving DecidableEq, Repr

/-- `DeliveryRequest.STATUS_CHOICES` (`volunteers/models.py`). -/
inductive RStatus where
  | pending
  | accepted
  | rejected
  | expired
  | delivered
  | completed
deriving DecidableEq, Repr

/-- A `DeliveryRequest` row (`volunteers/models.py`), identified by its
primary key `rid` and referring to its volunteer by id. -/
structure DeliveryRequest where
  rid : ℕ
  volunteer_id : ℕ
  status : RStatus
deriving DecidableEq, Repr

/-- The slice of a `Donation` row and its related `DeliveryRequest` set that
the accept/reject endpoints read and write: the status, the (nullable)
assigned volunteer, and every delivery request of this donation. -/
structure DonationState where
  status : DStatus
  volunteer : Option ℕ
  requests : List DeliveryRequest
deriving DecidableEq, Repr

/-- `DeliveryRequestViewSet.accept` (`volunteers/views.py` lines 135–184):
guard on the request being `pending` and the donation having no volunteer;
then assign the volunteer, mark the request accepted and force-expire every
other pending request of the donation.  Guard failures return an error
response and leave the state unchanged. -/
def acceptOp (d : DonationState) (rid : ℕ) : DonationState :=
  match d.requests.find? (fun r => r.rid = rid) with
  | none => d
  | some req =>
    if req.status ≠ .pending then d
    else if d.volunteer.isSome then d
    else
      { d with
        volunteer := some req.volunteer_id,
        requests := d.requests.map fun r =>
          if r.rid = rid then { r with status := .accepted }
          else if r.status = .pending then { r with status := .expired }
          else r }

/-- The status-update step at the top of the reject endpoint: the
donation's request set with the rejecting request marked `rejected`. -/
def mark_rejected (d : DonationState) (rid : ℕ) : List DeliveryRequest :=
  d.requests.map fun r =>
    if r.rid = rid then { r with status := RStatus.rejected } else r

/-- `DeliveryRequestViewSet.reject` (`volunteers/views.py` lines 186–265):
guard on the request being `pending`; mark it rejected; collect the ids of
every volunteer already contacted for this donation; run the Delivery
Planner on the available+verified volunteers outside that set; on a match
create one new `pending` request (with fresh primary key `fid`), otherwise
transition the donation to `pending_manual_assignment`.  `pool` is the
volunteer table, `route`/`donorLoc`/`recipientLoc` the routing inputs. -/
def rejectOp (route : (ℚ × ℚ) → (ℚ × ℚ) → ℚ) (donorLoc recipientLoc : ℚ × ℚ)
    (pool : List VolunteerProfile) (d : DonationState) (rid fid : ℕ) :
    DonationState :=
  match d.requests.find? (fun r => r.rid = rid) with
  | none => d
  | some req =>
    if req.status ≠ .pending then d
    else
      let requests' := mark_rejected d rid
      let contacted_volunteer_ids := requests'.map (fun r => r.volunteer_id)
      let volunteers := pool.filter fun v =>
        v.is_available && v.is_verified &&
          !(decide (v.vid ∈ contacted_volunteer_ids))
      match (find_optimal_volunteer route donorLoc recipientLoc volunteers).1 with
      | some v =>
        { d with requests := requests' ++ [⟨fid, v.vid, .pending⟩] }
      | none =>
        { d with status := .pending_manual_assignment, requests := requests' }

/-! ## Inventory claim, cancellation and the auto-cancel sweep -/

/-- The inventory update of `FoodItemViewSet.request_item`
(`inventory/views.py` lines 197–202): subtract the requested quantity and
flip availability off when the stock is exhausted. -/
def request_item_claim (food_item : FoodItem) (requested_quantity : ℚ) : FoodItem :=
  let food_item := { food_item with quantity := food_item.quantity - requested_quantity }
  if food_item.quantity ≤ 0 then
    { food_item with quantity := 0, is_available := false }
  else food_item

/-- A `Donation` row together with its `DonationItem` rows, as touched by
`Donation.cancel_donation` and the auto-cancel sweep: each pair is the
claimed food item and the claimed quantity. -/
structure DonationInv where
  status : DStatus
  scheduled_pickup_time : ℚ
  items : List (FoodItem × ℚ)
deriving DecidableEq, Repr

/-- `Donation.cancel_donation` (`inventory/models.py` lines 236–250): only a
`pending` or `confirmed` donation is cancelled; cancelling restores every
claimed item's quantity and re-flags availability when the restored
quantity is positive.  In any other status the method returns `False` and
changes nothing. -/
def cancel_donation (d : DonationInv) : DonationInv :=
  if d.status = .pending ∨ d.status = .confirmed then
    { d with
      status := .cancelled,
      items := d.items.map fun (food_item, q) =>
        let food_item := { food_item with quantity := food_item.quantity + q }
        if 0 < food_item.quantity then
          ({ food_item with is_available := true }, q)
        else (food_item, q) }
  else d

/-- The auto-cancel maintenance sweep at the top of
`DonationViewSet.get_queryset` (`inventory/views.py` lines 293–305):
every donation in `pending_manual_assignment` whose scheduled pickup time
has passed gets `cancel_donation` called on it. -/
def sweep (now : ℚ) (donations : List DonationInv) : List DonationInv :=
  donations.map fun d =>
    if d.status = .pending_manual_assignment ∧ d.scheduled_pickup_time < now then
      cancel_donation d
    else d

/-! ## Confirm receipt (`inventory/views.py` lines 488–535) -/

/-- The slice of a `Donation` row read and written by
`DonationViewSet.confirm_receipt`: status, the assigned volunteer's profile
(inlined), the stored rating, and the statuses of the donation's delivery
requests. -/
structure DonationReceipt where
  status : DStatus
  volunteer : Option VolunteerProfile
  rating : Option ℚ
  request_statuses : List RStatus
deriving DecidableEq, Repr

/-- `DonationViewSet.confirm_receipt` (`inventory/views.py` lines 488–535):
guarded by the caller being the assigned recipient and the status being
`picked_up` or `in_transit`; completes the donation; when a (truthy) rating
is supplied and a volunteer is assigned, folds the rating into the
volunteer's running average and increments the delivery counter; finally
marks every delivery request of the donation `completed`. -/
def confirm_receipt (d : DonationReceipt) (is_assigned_recipient : Bool)
    (rating : Option ℚ) : DonationReceipt :=
  if !is_assigned_recipient then d
  else if ¬(d.status = .picked_up ∨ d.status = .in_transit) then d
  else
    let d := { d with status := DStatus.completed }
    let d :=
      match rating with
      | some r =>
        if r ≠ 0 then
          let d := { d with rating := some r }
          match d.volunteer with
          | some v =>
            let new_rating :=
              (v.rating * (v.total_deliveries : ℚ) + r) / ((v.total_deliveries : ℚ) + 1)
            { d with volunteer := some { v with
                rating := new_rating,
                total_deliveries := v.total_deliveries + 1 } }
          | none => d
        else d
      | none => d
    { d with request_statuses := d.request_statuses.map fun _ => RStatus.completed }

/-! ## Claim theorems -/

/-- C8: `calculate_urgency` puts `hoursRemaining ≤ 2` in `critical`,
`2 < h ≤ 6` in `high`, `6 < h ≤ 24` in `medium` and `24 < h` in `low`
(boundaries inclusive at the lower threshold), and the urgency rank is
monotone non-increasing in the hours remaining. -/
theorem urgency_bands_and_monotonicity :
    (∀ (it : FoodItem) (now : ℚ),
      (calculate_urgency it now = .critical ↔ it.expiry_date - now ≤ 2) ∧
      (calculate_urgency it now = .high ↔
        2 < it.expiry_date - now ∧ it.expiry_date - now ≤ 6) ∧
      (calculate_urgency it now = .medium ↔
        6 < it.expiry_date - now ∧ it.expiry_date - now ≤ 24) ∧
      (calculate_urgency it now = .low ↔ 24 < it.expiry_date - now)) ∧
    (∀ (it₁ it₂ : FoodItem) (now : ℚ),
      it₁.expiry_date - now ≤ it₂.expiry_date - now →
      urgencyRank (calculate_urgency it₂ now) ≤ urgencyRank (calculate_urgency it₁ now)) := by
  constructor
  · intro it now
    simp only [calculate_urgency]
    split_ifs with h1 h2 h3
    · exact ⟨⟨fun _ => h1, fun _ => rfl⟩,
        ⟨fun hc => by simp at hc, fun hc => absurd h1 (not_le.mpr hc.1)⟩,
        ⟨fun hc => by simp at hc,
         fun hc => absurd h1 (not_le.mpr (lt_trans (by norm_num) hc.1))⟩,
        ⟨fun hc => by simp at hc,
         fun hc => absurd h1 (not_le.mpr (lt_trans (by norm_num) hc))⟩⟩
    · exact ⟨⟨fun hc => by simp at hc, fun hc => absurd hc h1⟩,
        ⟨fun _ => ⟨not_le.mp h1, h2⟩, fun _ => rfl⟩,
        ⟨fun hc => by simp at hc, fun hc => absurd h2 (not_le.mpr hc.1)⟩,
        ⟨fun hc => by simp at hc,
         fun hc => absurd h2 (not_le.mpr (lt_trans (by norm_num) hc))⟩⟩
    · exact ⟨⟨fun hc => by simp at hc, fun hc => absurd hc h1⟩,
        ⟨fun hc => by simp at hc, fun hc => absurd hc.2 h2⟩,
        ⟨fun _ => ⟨not_le.mp h2, h3⟩, fun _ => rfl⟩,
        ⟨fun hc => by simp at hc, fun hc => absurd h3 (not_le.mpr hc)⟩⟩
    · exact ⟨⟨fun hc => by simp at hc, fun hc => absurd hc h1⟩,
        ⟨fun hc => by simp at hc, fun hc => absurd hc.2 h2⟩,
        ⟨fun hc => by simp at hc, fun hc => absurd hc.2 h3⟩,
        ⟨fun _ => not_le.mp h3, fun _ => rfl⟩⟩
  · intro it₁ it₂ now h
    simp only [calculate_urgency]
    split_ifs <;> simp [urgencyRank] <;> linarith

/-- C8 witness: the exact boundary values — 2 hours is `critical`, 6 is
`high`, 24 is `medium`, 25 is `low`, and the rank at 25 hours is not above
the rank at 2 hours. -/
theorem urgency_bands_witness :
    calculate_urgency ⟨5, .good, 2, true, .medium, "Bread", 48, true⟩ 0 = .critical ∧
    calculate_urgency ⟨5, .good, 6, true, .medium, "Bread", 48, true⟩ 0 = .high ∧
    calculate_urgency ⟨5, .good, 24, true, .medium, "Bread", 48, true⟩ 0 = .medium ∧
    calculate_urgency ⟨5, .good, 25, true, .medium, "Bread", 48, true⟩ 0 = .low ∧
    urgencyRank (calculate_urgency ⟨5, .good, 25, true, .medium, "Bread", 48, true⟩ 0) ≤
      urgencyRank (calculate_urgency ⟨5, .good, 2, true, .medium, "Bread", 48, true⟩ 0) := by
  refine ⟨?_, ?_, ?_, ?_, ?_⟩
  · exact ((urgency_bands_and_monotonicity.1 _ 0).1).mpr (by norm_num)
  · exact ((urgency_bands_and_monotonicity.1 _ 0).2.1).mpr (by norm_num)
  · exact ((urgency_bands_and_monotonicity.1 _ 0).2.2.1).mpr (by norm_num)
  · exact ((urgency_bands_and_monotonicity.1 _ 0).2.2.2).mpr (by norm_num)
  · exact urgency_bands_and_monotonicity.2 _ _ 0 (by norm_num)

/-- C10 (implicit): an unavailable item has `hours_until_expiry = 0`
whatever its expiry timestamp, so an unavailable but unexpired item's
freshness score is exactly its condition bonus — in particular 0 for
condition `poor` even though the item is not expired. -/
theorem unavailable_item_freshness :
    ∀ (it : FoodItem) (now : ℚ), it.is_available = false →
      hours_until_expiry it now = 0 ∧
      (is_expired it now = false →
        freshness_score it now = condition_scores it.condition) ∧
      (is_expired it now = false → it.condition = .poor →
        freshness_score it now = 0) := by
  intro it now hav
  have hh : hours_until_expiry it now = 0 := by
    simp [hours_until_expiry, hav]
  refine ⟨hh, ?_, ?_⟩
  · intro hexp
    simp only [freshness_score, hexp, Bool.false_eq_true, if_false, hh]
    rw [zero_div, zero_mul, zero_add]
    cases hc : it.condition <;> simp [condition_scores] <;> norm_num
  · intro hexp hpoor
    simp only [freshness_score, hexp, Bool.false_eq_true, if_false, hh, hpoor]
    rw [zero_div, zero_mul, zero_add]
    simp [condition_scores]

/-- C10 witness: a concrete unavailable, unexpired item of condition `poor`
has freshness score 0. -/
theorem unavailable_item_freshness_witness :
    is_expired ⟨5, .poor, 10, false, .medium, "Bread", 48, true⟩ 0 = false ∧
    freshness_score ⟨5, .poor, 10, false, .medium, "Bread", 48, true⟩ 0 = 0 := by
  refine ⟨by decide, ?_⟩
  exact (unavailable_item_freshness ⟨5, .poor, 10, false, .medium, "Bread", 48, true⟩ 0
    rfl).2.2 (by decide) rfl

/-- C4 counterexample: the claim "freshness is 0 iff expired, otherwise
min(100, (h/shelf)·70 + bonus) and strictly decreasing in hoursRemaining"
fails on the code.  First input: an unavailable item of condition `poor`
expiring 10 hours from now has score 0 without being expired.  Second pair
of inputs: with condition `excellent`, shelf life 10h, two available items
at 20 and 15 hours remaining both score exactly 100 (the cap), so the score
is not strictly decreasing as hoursRemaining decreases. -/
theorem freshness_claim_counterexample :
    (freshness_score ⟨5, .poor, 10, false, .medium, "Bread", 48, true⟩ 0 = 0 ∧
     is_expired ⟨5, .poor, 10, false, .medium, "Bread", 48, true⟩ 0 = false) ∧
    (freshness_score ⟨5, .excellent, 20, true, .medium, "Bread", 10, true⟩ 0 = 100 ∧
     freshness_score ⟨5, .excellent, 15, true, .medium, "Bread", 10, true⟩ 0 = 100 ∧
     (15 : ℚ) < 20) := by
  refine ⟨⟨?_, by decide⟩, ?_, ?_, by norm_num⟩ <;>
    simp [freshness_score, is_expired, hours_until_expiry, condition_scores] <;> norm_num

/-- C4 amended: for every item, the freshness score is 0 when the item is
expired; for an *available* unexpired item it equals
`min(100, (hoursRemaining/averageShelfLifeHours)·70 + conditionBonus)` with
bonus excellent=30, good=20, fair=10, poor=0, and (shelf life positive) it
is 0 iff the item is expired; and, holding condition, shelf life and
availability fixed, it is strictly decreasing as hoursRemaining decreases
as long as the uncapped score stays at most 100. -/
theorem freshness_amended :
    (condition_scores .excellent = 30 ∧ condition_scores .good = 20 ∧
     condition_scores .fair = 10 ∧ condition_scores .poor = 0) ∧
    (∀ (it : FoodItem) (now : ℚ), is_expired it now = true →
      freshness_score it now = 0) ∧
    (∀ (it : FoodItem) (now : ℚ), it.is_available = true → is_expired it now = false →
      freshness_score it now =
        min 100 ((it.expiry_date - now) / it.category_shelf_life * 70 +
          condition_scores it.condition)) ∧
    (∀ (it : FoodItem) (now : ℚ), it.is_available = true → 0 < it.category_shelf_life →
      (freshness_score it now = 0 ↔ is_expired it now = true)) ∧
    (∀ (it₁ it₂ : FoodItem) (now : ℚ),
      it₁.is_available = true → it₂.is_available = true →
      it₂.condition = it₁.condition →
      it₂.category_shelf_life = it₁.category_shelf_life →
      0 < it₁.category_shelf_life →
      now < it₂.expiry_date → it₂.expiry_date < it₁.expiry_date →
      (it₁.expiry_date - now) / it₁.category_shelf_life * 70 +
        condition_scores it₁.condition ≤ 100 →
      freshness_score it₂ now < freshness_score it₁ now) := by
  have hbonus : ∀ c, (0 : ℚ) ≤ condition_scores c := by
    intro c; cases c <;> simp [condition_scores]
  have hval : ∀ (it : FoodItem) (now : ℚ), it.is_available = true →
      is_expired it now = false →
      freshness_score it now =
        min 100 ((it.expiry_date - now) / it.category_shelf_life * 70 +
          condition_scores it.condition) := by
    intro it now hav hexp
    have hlt : now < it.expiry_date := by
      have h := hexp
      simp only [is_expired, decide_eq_false_iff_not, not_le] at h
      exact h
    simp only [freshness_score, hexp, Bool.false_eq_true, if_false,
      hours_until_expiry, hav, Bool.not_true, Bool.false_eq_true, if_false]
    rw [max_eq_right (by linarith)]
  refine ⟨⟨rfl, rfl, rfl, rfl⟩, ?_, hval, ?_, ?_⟩
  · intro it now hexp
    simp [freshness_score, hexp]
  · intro it now hav hshelf
    cases hexp : is_expired it now with
    | true => simp [freshness_score, hexp]
    | false =>
      simp only [Bool.false_eq_true, iff_false]
      rw [hval it now hav hexp]
      have hlt : now < it.expiry_date := by
        simpa [is_expired, not_le] using hexp
      have hpos : 0 < (it.expiry_date - now) / it.category_shelf_life * 70 +
          condition_scores it.condition := by
        have h1 : 0 < (it.expiry_date - now) / it.category_shelf_life :=
          div_pos (by linarith) hshelf
        have := hbonus it.condition
        linarith
      have : 0 < min 100 ((it.expiry_date - now) / it.category_shelf_life * 70 +
          condition_scores it.condition) := lt_min (by norm_num) hpos
      exact ne_of_gt this
  · intro it₁ it₂ now hav₁ hav₂ hcond hshelf hpos hlt₂ hlt₁ hcap
    have hexp₁ : is_expired it₁ now = false := by
      simp [is_expired, not_le]; linarith
    have hexp₂ : is_expired it₂ now = false := by
      simp [is_expired, not_le]; linarith
    rw [hval it₁ now hav₁ hexp₁, hval it₂ now hav₂ hexp₂, hcond, hshelf]
    have hstrict : (it₂.expiry_date - now) / it₁.category_shelf_life * 70 +
        condition_scores it₁.condition <
        (it₁.expiry_date - now) / it₁.category_shelf_life * 70 +
        condition_scores it₁.condition := by
      gcongr
    calc min 100 ((it₂.expiry_date - now) / it₁.category_shelf_life * 70 +
            condition_scores it₁.condition)
        ≤ (it₂.expiry_date - now) / it₁.category_shelf_life * 70 +
            condition_scores it₁.condition := min_le_right _ _
      _ < (it₁.expiry_date - now) / it₁.category_shelf_life * 70 +
            condition_scores it₁.condition := hstrict
      _ = min 100 ((it₁.expiry_date - now) / it₁.category_shelf_life * 70 +
            condition_scores it₁.condition) := (min_eq_right hcap).symm

/-- C4 amended witness: the scenario from the spec — one hour to expiry,
48h shelf life, condition good — gives freshness `(1/48)·70 + 20 = 515/24`,
and 30 minutes to expiry gives a strictly smaller score. -/
theorem freshness_amended_witness :
    freshness_score ⟨5, .good, 1, true, .medium, "Bread", 48, true⟩ 0 = 515 / 24 ∧
    freshness_score ⟨5, .good, 1/2, true, .medium, "Bread", 48, true⟩ 0 <
      freshness_score ⟨5, .good, 1, true, .medium, "Bread", 48, true⟩ 0 := by
  constructor
  · rw [freshness_amended.2.2.1 ⟨5, .good, 1, true, .medium, "Bread", 48, true⟩ 0 rfl
      (by decide)]
    norm_num [condition_scores]
  · exact freshness_amended.2.2.2.2 ⟨5, .good, 1, true, .medium, "Bread", 48, true⟩
      ⟨5, .good, 1/2, true, .medium, "Bread", 48, true⟩ 0 rfl rfl rfl rfl (by norm_num)
      (by norm_num) (by norm_num) (by norm_num [condition_scores])

/-- C9: confirming receipt of a `picked_up` or `in_transit` donation by the
assigned recipient with a rating `r` in 1–5 stores the rating, completes
the donation, and updates the assigned volunteer's running average to
`(oldRating·oldCount + r)/(oldCount+1)` while incrementing
`total_deliveries` by one. -/
theorem confirm_receipt_updates_rating (d : DonationReceipt) (v : VolunteerProfile)
    (r : ℚ) (hst : d.status = .picked_up ∨ d.status = .in_transit)
    (hv : d.volunteer = some v) (hr1 : 1 ≤ r) (hr5 : r ≤ 5) :
    (confirm_receipt d true (some r)).volunteer =
      some { v with
        rating := (v.rating * (v.total_deliveries : ℚ) + r) / ((v.total_deliveries : ℚ) + 1),
        total_deliveries := v.total_deliveries + 1 } ∧
    (confirm_receipt d true (some r)).status = .completed ∧
    (confirm_receipt d true (some r)).rating = some r := by
  have hr0 : r ≠ 0 := by linarith
  simp [confirm_receipt, hst, hv, hr0]

/-- C9 witness: rating 5 on a volunteer with prior rating 4.0 over 10
deliveries yields rating 45/11 (≈ 4.09) and 11 total deliveries. -/
theorem confirm_receipt_updates_rating_witness :
    (confirm_receipt ⟨.picked_up, some ⟨1, true, true, 4, 10, true, none⟩, none, []⟩
        true (some 5)).volunteer =
      some ⟨1, true, true, 45 / 11, 11, true, none⟩ := by
  have h := confirm_receipt_updates_rating
    ⟨.picked_up, some ⟨1, true, true, 4, 10, true, none⟩, none, []⟩
    ⟨1, true, true, 4, 10, true, none⟩ 5 (Or.inl rfl) rfl (by norm_num) (by norm_num)
  rw [h.1]
  norm_num

/-- C7: claiming `q` units (0 < q ≤ Q) of an available item with quantity
`Q` decrements it to `Q − q`, availability flipping off exactly when the
stock is exhausted; cancelling the (pending or confirmed) donation that
holds the claim restores the item to exactly its original state — claim
followed by cancel is the identity on the item's inventory. -/
theorem claim_then_cancel_roundtrip (fi : FoodItem) (q spt : ℚ) (st : DStatus)
    (h0 : 0 < q) (hq : q ≤ fi.quantity) (hav : fi.is_available = true)
    (hst : st = .pending ∨ st = .confirmed) :
    ((request_item_claim fi q).quantity = fi.quantity - q ∧
     ((request_item_claim fi q).is_available = true ↔ q < fi.quantity)) ∧
    cancel_donation ⟨st, spt, [(request_item_claim fi q, q)]⟩ =
      ⟨.cancelled, spt, [(fi, q)]⟩ := by
  obtain ⟨Q, cond, exp, av, urg, cat, shelf, coords⟩ := fi
  simp only at hq hav
  subst hav
  rcases lt_or_eq_of_le hq with hlt | heq
  · have hpos : ¬(Q - q ≤ 0) := by simp; linarith
    constructor
    · constructor
      · simp [request_item_claim, hpos]
      · simp [request_item_claim, hpos, hlt]
    · simp only [cancel_donation, hst, if_pos, request_item_claim, hpos, if_false]
      simp [hst]
  · subst heq
    have hz : (q - q : ℚ) ≤ 0 := by simp
    constructor
    · constructor
      · simp [request_item_claim, hz]
      · simp [request_item_claim, hz]
    · simp only [cancel_donation, request_item_claim, hz]
      simp [hst, h0]

/-- C7 witness: an available item of quantity 5 with 2 units claimed goes to
quantity 3, and cancelling the pending donation restores it to 5 and keeps
it available. -/
theorem claim_then_cancel_roundtrip_witness :
    (request_item_claim ⟨5, .good, 10, true, .medium, "Bread", 48, true⟩ 2).quantity = 3 ∧
    cancel_donation ⟨.pending, 0,
        [(request_item_claim ⟨5, .good, 10, true, .medium, "Bread", 48, true⟩ 2, 2)]⟩ =
      ⟨.cancelled, 0, [(⟨5, .good, 10, true, .medium, "Bread", 48, true⟩, 2)]⟩ := by
  have h := claim_then_cancel_roundtrip ⟨5, .good, 10, true, .medium, "Bread", 48, true⟩
    2 0 .pending (by norm_num) (by norm_num) rfl (Or.inl rfl)
  refine ⟨?_, h.2⟩
  rw [h.1.1]
  norm_num

/-- C3 (code bug): the auto-cancel sweep in `DonationViewSet.get_queryset`
calls `Donation.cancel_donation` on every `pending_manual_assignment`
donation whose pickup time has passed, but `cancel_donation` refuses any
status outside `pending`/`confirmed`, so the sweep neither cancels the
donation nor restores inventory — it is a no-op on its own selection.  The
idempotence half of the claim (re-running against an already-cancelled
donation is a no-op) does hold.  Concretely: a `pending_manual_assignment`
donation with pickup time 0, swept at time 1, is left unchanged. -/
theorem sweep_never_cancels :
    sweep 1 [⟨.pending_manual_assignment, 0,
        [(⟨3, .good, 10, false, .medium, "Bread", 48, true⟩, 2)]⟩] =
      [⟨.pending_manual_assignment, 0,
        [(⟨3, .good, 10, false, .medium, "Bread", 48, true⟩, 2)]⟩] ∧
    cancel_donation ⟨.pending_manual_assignment, 0,
        [(⟨3, .good, 10, false, .medium, "Bread", 48, true⟩, 2)]⟩ =
      ⟨.pending_manual_assignment, 0,
        [(⟨3, .good, 10, false, .medium, "Bread", 48, true⟩, 2)]⟩ ∧
    sweep 1 [⟨.cancelled, 0,
        [(⟨5, .good, 10, true, .medium, "Bread", 48, true⟩, 2)]⟩] =
      [⟨.cancelled, 0, [(⟨5, .good, 10, true, .medium, "Bread", 48, true⟩, 2)]⟩] := by
  refine ⟨?_, ?_, ?_⟩ <;> simp [sweep, cancel_donation]

/-! ### Helper lemmas about `find_optimal_volunteer` (shared by C1 and C5) -/

/-- When the selection engine returns a volunteer, that volunteer is an
available+verified member of the pool, the returned score is their score,
no available+verified pool member scores higher, and the winner is the
first pool member (in iteration order) attaining the maximal score. -/
theorem find_optimal_volunteer_eq_some
    (route : (ℚ × ℚ) → (ℚ × ℚ) → ℚ) (donorLoc recipientLoc : ℚ × ℚ)
    (pool : List VolunteerProfile) (v : VolunteerProfile) (s : ℚ)
    (h : find_optimal_volunteer route donorLoc recipientLoc pool = (some v, s)) :
    v ∈ pool ∧ v.is_available = true ∧ v.is_verified = true ∧
    s = volunteer_score (pickup_distance route donorLoc v) v ∧
    (∀ w ∈ pool, w.is_available = true → w.is_verified = true →
      volunteer_score (pickup_distance route donorLoc w) w ≤ s) ∧
    ∃ pre post,
      pool.filter (fun w => w.is_available && w.is_verified) = pre ++ v :: post ∧
      ∀ w ∈ pre, volunteer_score (pickup_distance route donorLoc w) w < s := by
  classical
  by_cases hpool : pool = []
  · rw [hpool] at h
    simp [find_optimal_volunteer] at h
  · rw [find_optimal_volunteer, if_neg hpool] at h
    simp only at h
    split at h
    · simp at h
    · rename_i best rest hs
      simp only [Prod.mk.injEq, Option.some.injEq] at h
      obtain ⟨hv, hsv⟩ := h
      set flt := pool.filter (fun w => w.is_available && w.is_verified) with hflt
      set g : VolunteerProfile → VolunteerProfile × ℚ :=
        fun w => (w, volunteer_score (pickup_distance route donorLoc w) w) with hg
      have hne : flt.map g ≠ [] := by
        intro hnil
        rw [hnil] at hs
        simp [sortDescBy] at hs
      obtain ⟨hd, tl2, hsort, ⟨l₁, l₂, hdec, hprelt⟩, hmaxall⟩ :=
        sortDescBy_head Prod.snd (flt.map g) hne
      obtain ⟨hbe, -⟩ : hd = best ∧ tl2 = rest :=
        List.cons_eq_cons.mp (hsort.symm.trans hs)
      subst hbe
      -- decompose the mapped list back into a decomposition of the filter
      obtain ⟨m₁, m₀, hflt_eq, hm₁, hm₀⟩ := List.map_eq_append_iff.mp hdec
      obtain ⟨x, m₂, hm₀eq, hgx, hm₂⟩ := List.map_eq_cons_iff.mp hm₀
      have hhd : hd ∈ flt.map g := by
        rw [hdec]
        exact List.mem_append_right _ (List.mem_cons_self _ _)
      obtain ⟨w, hwmem, hgw⟩ := List.mem_map.mp hhd
      have hveq : w = hd.1 := by rw [← hgw]
      have hwpool : w ∈ pool := List.mem_of_mem_filter hwmem
      have hwprop : w.is_available = true ∧ w.is_verified = true := by
        have := List.of_mem_filter hwmem
        simpa [Bool.and_eq_true] using this
      have hscore : hd.2 = volunteer_score (pickup_distance route donorLoc w) w := by
        rw [← hgw]
      subst hv hsv
      refine ⟨hveq ▸ hwpool, hveq ▸ hwprop.1, hveq ▸ hwprop.2, hveq ▸ hscore, ?_, ?_⟩
      · intro u humem huav huver
        have humemflt : u ∈ flt := by
          rw [hflt]
          exact List.mem_filter.mpr ⟨humem, by simp [huav, huver]⟩
        have hmem : g u ∈ flt.map g := List.mem_map_of_mem g humemflt
        have := hmaxall (g u) hmem
        simpa [hg] using this
      · refine ⟨m₁, m₂, ?_, ?_⟩
        · rw [hflt_eq, hm₀eq]
          have : x = hd.1 := by
            have := congrArg Prod.fst hgx
            simpa [hg] using this
          rw [this]
        · intro u humem
          have hmem : g u ∈ l₁ := by
            rw [← hm₁]
            exact List.mem_map_of_mem g humem
          have := hprelt (g u) hmem
          simpa [hg] using this

/-- When the selection pool filters down to nothing, the engine returns
`(none, 0)`. -/
theorem find_optimal_volunteer_eq_none
    (route : (ℚ × ℚ) → (ℚ × ℚ) → ℚ) (donorLoc recipientLoc : ℚ × ℚ)
    (pool : List VolunteerProfile)
    (h : pool.filter (fun w => w.is_available && w.is_verified) = []) :
    find_optimal_volunteer route donorLoc recipientLoc pool = (none, 0) := by
  by_cases hpool : pool = []
  · simp [find_optimal_volunteer, hpool]
  · rw [find_optimal_volunteer, if_neg hpool]
    simp only [h, List.map_nil, sortDescBy]

/-- C5: `find_optimal_volunteer` returns `(none, 0)` on an empty pool or
when every candidate fails the availability/verification filter; otherwise
it returns a maximal-scoring available+verified candidate (score = 100,
minus 50/30/10 for pickup distance over 20/10/5 km, plus rating·5, plus 20
for more than 50 deliveries, plus 15 for a vehicle, distance taken as
100 km without a known location), ties broken by pool iteration order; and
the spec's concrete candidate (rating 4.5, 60 deliveries, vehicle, pickup
distance 3 km) scores 157.5. -/
theorem find_optimal_volunteer_spec
    (route : (ℚ × ℚ) → (ℚ × ℚ) → ℚ) (donorLoc recipientLoc : ℚ × ℚ)
    (pool : List VolunteerProfile) :
    (pool = [] →
      find_optimal_volunteer route donorLoc recipientLoc pool = (none, 0)) ∧
    (pool.filter (fun w => w.is_available && w.is_verified) = [] →
      find_optimal_volunteer route donorLoc recipientLoc pool = (none, 0)) ∧
    (∀ v s, find_optimal_volunteer route donorLoc recipientLoc pool = (some v, s) →
      v ∈ pool ∧ v.is_available = true ∧ v.is_verified = true ∧
      s = volunteer_score (pickup_distance route donorLoc v) v ∧
      (∀ w ∈ pool, w.is_available = true → w.is_verified = true →
        volunteer_score (pickup_distance route donorLoc w) w ≤ s) ∧
      ∃ pre post,
        pool.filter (fun w => w.is_available && w.is_verified) = pre ++ v :: post ∧
        ∀ w ∈ pre, volunteer_score (pickup_distance route donorLoc w) w < s) ∧
    (∀ loc, volunteer_score 3 ⟨1, true, true, 9/2, 60, true, loc⟩ = 315/2 ∧
      (∀ v : VolunteerProfile, v.location = none →
        pickup_distance route donorLoc v = 100)) := by
  refine ⟨?_, ?_, ?_, ?_⟩
  · intro hpool
    simp [find_optimal_volunteer, hpool]
  · exact find_optimal_volunteer_eq_none route donorLoc recipientLoc pool
  · intro v s h
    exact find_optimal_volunteer_eq_some route donorLoc recipientLoc pool v s h
  · intro loc
    constructor
    · norm_num [volunteer_score]
    · intro v hv
      simp [pickup_distance, hv]

/-- C5 witness: on a one-element pool holding the spec's concrete candidate
the engine returns that candidate with score 157.5 (tested with the trivial
routing collaborator that returns the value 3 everywhere). -/
theorem find_optimal_volunteer_spec_witness :
    find_optimal_volunteer (fun _ _ => 3) (0, 0) (1, 1)
        [⟨1, true, true, 9/2, 60, true, some (2, 2)⟩] =
      (some ⟨1, true, true, 9/2, 60, true, some (2, 2)⟩, 315/2) ∧
    ⟨1, true, true, 9/2, 60, true, some (2, 2)⟩ ∈
      ([⟨1, true, true, 9/2, 60, true, some (2, 2)⟩] : List VolunteerProfile) := by
  have hrun : find_optimal_volunteer (fun _ _ => 3) (0, 0) (1, 1)
      [⟨1, true, true, 9/2, 60, true, some (2, 2)⟩] =
      (some ⟨1, true, true, 9/2, 60, true, some (2, 2)⟩, 315/2) := by
    norm_num [find_optimal_volunteer, sortDescBy, insertDesc, pickup_distance,
      volunteer_score]
  refine ⟨hrun, ?_⟩
  exact (find_optimal_volunteer_spec (fun _ _ => 3) (0, 0) (1, 1)
    [⟨1, true, true, 9/2, 60, true, some (2, 2)⟩]).2.2.1 _ _ hrun |>.1

/-- C6: `find_best_matches` returns only verified recipients with positive
capacity that can accept the item's quantity, each paired with its match
score, in non-increasing score order, truncated to `max_matches`; the
returned pairs together with the dropped ones form a permutation of the
scored candidate list, every dropped candidate scoring no more than any
returned one; and an empty recipient set yields the empty list. -/
theorem find_best_matches_spec (food_item : FoodItem)
    (recipients : List RecipientProfile) (max_matches : ℕ) :
    (∀ p ∈ find_best_matches food_item recipients max_matches,
      p.1.is_verified = true ∧ 0 < p.1.capacity ∧
      food_item.quantity ≤ (available_capacity p.1 : ℚ) ∧
      p.2 = calculate_match_score food_item p.1) ∧
    (find_best_matches food_item recipients max_matches).Pairwise
      (fun p q => q.2 ≤ p.2) ∧
    (find_best_matches food_item recipients max_matches).length ≤ max_matches ∧
    (∃ rest,
      (((recipients.filter fun r => r.is_verified && decide (0 < r.capacity)).filterMap
          fun r =>
            if can_accept_donation r food_item.quantity then
              some (r, calculate_match_score food_item r)
            else none).Perm
        (find_best_matches food_item recipients max_matches ++ rest)) ∧
      ∀ p ∈ find_best_matches food_item recipients max_matches,
        ∀ q ∈ rest, q.2 ≤ p.2) ∧
    (recipients = [] → find_best_matches food_item recipients max_matches = []) := by
  classical
  set scored := (recipients.filter fun r =>
      r.is_verified && decide (0 < r.capacity)).filterMap fun r =>
    if can_accept_donation r food_item.quantity then
      some (r, calculate_match_score food_item r)
    else none with hscored
  have hfbm : find_best_matches food_item recipients max_matches =
      (sortDescBy Prod.snd scored).take max_matches := rfl
  have hsorted := pairwise_sortDescBy Prod.snd scored
  have hperm := perm_sortDescBy Prod.snd scored
  refine ⟨?_, ?_, ?_, ?_, ?_⟩
  · intro p hp
    rw [hfbm] at hp
    have hp' : p ∈ sortDescBy Prod.snd scored :=
      (List.take_sublist _ _).mem hp
    have hpsc : p ∈ scored := hperm.mem_iff.mp hp'
    rw [hscored] at hpsc
    obtain ⟨r, hrmem, hreq⟩ := List.mem_filterMap.mp hpsc
    by_cases hacc : can_accept_donation r food_item.quantity
    · rw [if_pos hacc] at hreq
      obtain rfl : (r, calculate_match_score food_item r) = p := Option.some.inj hreq
      have hflt := List.of_mem_filter hrmem
      simp only [Bool.and_eq_true, decide_eq_true_eq] at hflt
      have hcan : r.is_verified = true ∧
          food_item.quantity ≤ (available_capacity r : ℚ) := by
        have := hacc
        simp only [can_accept_donation, Bool.and_eq_true, decide_eq_true_eq] at this
        exact this
      exact ⟨hflt.1, hflt.2, hcan.2, rfl⟩
    · rw [if_neg hacc] at hreq
      cases hreq
  · rw [hfbm]
    exact List.Pairwise.sublist (List.take_sublist _ _) hsorted
  · rw [hfbm]
    exact List.length_take_le _ _
  · refine ⟨(sortDescBy Prod.snd scored).drop max_matches, ?_, ?_⟩
    · rw [hfbm, List.take_append_drop]
      exact hperm.symm
    · intro p hp q hq
      rw [hfbm] at hp
      have := List.pairwise_append.mp
        ((List.take_append_drop max_matches (sortDescBy Prod.snd scored)).symm ▸ hsorted)
      exact this.2.2 p hp q hq
  · intro hrec
    rw [hfbm, hscored, hrec]
    simp [sortDescBy]

/-- C6 witness: a single verified recipient with spare capacity is returned
with its score; the witness instantiates the specification theorem on that
concrete input and also runs the function. -/
theorem find_best_matches_spec_witness :
    find_best_matches ⟨5, .good, 10, true, .high, "Bread", 48, true⟩
        [⟨true, 10, 2, true, []⟩] 5 =
      [(⟨true, 10, 2, true, []⟩,
        calculate_match_score ⟨5, .good, 10, true, .high, "Bread", 48, true⟩
          ⟨true, 10, 2, true, []⟩)] ∧
    (∀ p ∈ find_best_matches ⟨5, .good, 10, true, .high, "Bread", 48, true⟩
        [⟨true, 10, 2, true, []⟩] 5,
      p.1.is_verified = true ∧ 0 < p.1.capacity ∧
      (5 : ℚ) ≤ (available_capacity p.1 : ℚ) ∧
      p.2 = calculate_match_score ⟨5, .good, 10, true, .high, "Bread", 48, true⟩ p.1) := by
  constructor
  · rfl
  · exact (find_best_matches_spec ⟨5, .good, 10, true, .high, "Bread", 48, true⟩
      [⟨true, 10, 2, true, []⟩] 5).1

/-- Case analysis of the reject endpoint on a pending request: either one
new pending request is appended for an uncontacted available+verified pool
member, or the donation escalates to `pending_manual_assignment` — and
never both.  Shared helper behind the C1 claim theorem and the C2
invariant-preservation lemma. -/
theorem rejectOp_cases
    (route : (ℚ × ℚ) → (ℚ × ℚ) → ℚ) (donorLoc recipientLoc : ℚ × ℚ)
    (pool : List VolunteerProfile) (d : DonationState) (rid fid : ℕ)
    (req : DeliveryRequest)
    (hfind : d.requests.find? (fun r => r.rid = rid) = some req)
    (hpend : req.status = .pending) :
    ((∃ v : VolunteerProfile,
        v ∈ pool ∧ v.is_available = true ∧ v.is_verified = true ∧
        v.vid ∉ d.requests.map (fun r => r.volunteer_id) ∧
        rejectOp route donorLoc recipientLoc pool d rid fid =
          { d with requests := mark_rejected d rid ++ [⟨fid, v.vid, .pending⟩] }) ∨
      rejectOp route donorLoc recipientLoc pool d rid fid =
        { d with status := .pending_manual_assignment,
                 requests := mark_rejected d rid }) ∧
    ¬((∃ v : VolunteerProfile,
        v ∈ pool ∧ v.is_available = true ∧ v.is_verified = true ∧
        v.vid ∉ d.requests.map (fun r => r.volunteer_id) ∧
        rejectOp route donorLoc recipientLoc pool d rid fid =
          { d with requests := mark_rejected d rid ++ [⟨fid, v.vid, .pending⟩] }) ∧
      rejectOp route donorLoc recipientLoc pool d rid fid =
        { d with status := .pending_manual_assignment,
                 requests := mark_rejected d rid }) := by
  classical
  have hvid : (mark_rejected d rid).map (fun r => r.volunteer_id) =
      d.requests.map (fun r => r.volunteer_id) := by
    simp only [mark_rejected, List.map_map]
    congr 1
    funext r
    by_cases h : r.rid = rid <;> simp [h]
  set cand := pool.filter (fun v =>
    v.is_available && v.is_verified &&
      !(decide (v.vid ∈ (mark_rejected d rid).map fun r => r.volunteer_id)))
    with hcand
  have hred : rejectOp route donorLoc recipientLoc pool d rid fid =
      match (find_optimal_volunteer route donorLoc recipientLoc cand).1 with
      | some v => { d with requests := mark_rejected d rid ++ [⟨fid, v.vid, .pending⟩] }
      | none =>
        { d with
          status := DStatus.pending_manual_assignment,
          requests := mark_rejected d rid } := by
    unfold rejectOp
    rw [hfind]
    simp [hpend, hcand]
  have hnotboth : ¬((∃ v : VolunteerProfile,
      v ∈ pool ∧ v.is_available = true ∧ v.is_verified = true ∧
      v.vid ∉ d.requests.map (fun r => r.volunteer_id) ∧
      rejectOp route donorLoc recipientLoc pool d rid fid =
        { d with requests := mark_rejected d rid ++ [⟨fid, v.vid, .pending⟩] }) ∧
    rejectOp route donorLoc recipientLoc pool d rid fid =
      { d with status := .pending_manual_assignment,
               requests := mark_rejected d rid }) := by
    rintro ⟨⟨v, -, -, -, -, hA⟩, hB⟩
    have hrec := hA.symm.trans hB
    have hreqs := congrArg DonationState.requests hrec
    simp only at hreqs
    have hlen := congrArg List.length hreqs
    simp at hlen
  refine ⟨?_, hnotboth⟩
  rcases hov : (find_optimal_volunteer route donorLoc recipientLoc cand).1 with _ | v
  · rw [hov] at hred
    exact Or.inr hred
  · rw [hov] at hred
    have hfull : find_optimal_volunteer route donorLoc recipientLoc cand =
        (some v, (find_optimal_volunteer route donorLoc recipientLoc cand).2) := by
      rw [← hov]
    obtain ⟨hvmem, hvav, hvver, -, -, -⟩ :=
      find_optimal_volunteer_eq_some route donorLoc recipientLoc cand v _ hfull
    have hvpool : v ∈ pool := List.mem_of_mem_filter (hcand ▸ hvmem)
    have hp := List.of_mem_filter (hcand ▸ hvmem)
    simp only [Bool.and_eq_true, Bool.not_eq_true', decide_eq_false_iff_not] at hp
    exact Or.inl ⟨v, hvpool, hvav, hvver, hvid ▸ hp.2, hred⟩

/-- C1: rejecting a pending DeliveryRequest either (a) creates exactly one
new pending request for a volunteer who is in the pool, available,
verified, and not already the subject of any request for this donation
(donation status and assignment untouched), or (b) transitions the
donation to `pending_manual_assignment` with no new request — and never
both. -/
theorem reject_rematches_or_escalates
    (route : (ℚ × ℚ) → (ℚ × ℚ) → ℚ) (donorLoc recipientLoc : ℚ × ℚ)
    (pool : List VolunteerProfile) (d : DonationState) (rid fid : ℕ)
    (req : DeliveryRequest)
    (hfind : d.requests.find? (fun r => r.rid = rid) = some req)
    (hpend : req.status = .pending) :
    ((∃ v : VolunteerProfile,
        v ∈ pool ∧ v.is_available = true ∧ v.is_verified = true ∧
        v.vid ∉ d.requests.map (fun r => r.volunteer_id) ∧
        rejectOp route donorLoc recipientLoc pool d rid fid =
          { d with requests := mark_rejected d rid ++ [⟨fid, v.vid, .pending⟩] }) ∨
      rejectOp route donorLoc recipientLoc pool d rid fid =
        { d with status := .pending_manual_assignment,
                 requests := mark_rejected d rid }) ∧
    ¬((∃ v : VolunteerProfile,
        v ∈ pool ∧ v.is_available = true ∧ v.is_verified = true ∧
        v.vid ∉ d.requests.map (fun r => r.volunteer_id) ∧
        rejectOp route donorLoc recipientLoc pool d rid fid =
          { d with requests := mark_rejected d rid ++ [⟨fid, v.vid, .pending⟩] }) ∧
      rejectOp route donorLoc recipientLoc pool d rid fid =
        { d with status := .pending_manual_assignment,
                 requests := mark_rejected d rid }) :=
  rejectOp_cases route donorLoc recipientLoc pool d rid fid req hfind hpend

/-- C1 witness: with one pending request from volunteer 7 and a pool holding
an uncontacted available+verified volunteer 8, rejecting request 1 creates
exactly one new pending request for volunteer 8; with an empty pool it
escalates to `pending_manual_assignment`. -/
theorem reject_rematches_or_escalates_witness :
    (rejectOp (fun _ _ => 3) (0, 0) (1, 1)
        [⟨8, true, true, 4, 10, true, some (2, 2)⟩]
        ⟨.confirmed, none, [⟨1, 7, .pending⟩]⟩ 1 2 =
      { status := DStatus.confirmed, volunteer := none,
        requests := [⟨1, 7, .rejected⟩, ⟨2, 8, .pending⟩] } ∨
      rejectOp (fun _ _ => 3) (0, 0) (1, 1)
        [⟨8, true, true, 4, 10, true, some (2, 2)⟩]
        ⟨.confirmed, none, [⟨1, 7, .pending⟩]⟩ 1 2 =
      { status := DStatus.pending_manual_assignment, volunteer := none,
        requests := [⟨1, 7, .rejected⟩] }) ∧
    rejectOp (fun _ _ => 3) (0, 0) (1, 1) []
        ⟨.confirmed, none, [⟨1, 7, .pending⟩]⟩ 1 2 =
      { status := DStatus.pending_manual_assignment, volunteer := none,
        requests := [⟨1, 7, .rejected⟩] } := by
  constructor
  · have h := reject_rematches_or_escalates (fun _ _ => 3) (0, 0) (1, 1)
      [⟨8, true, true, 4, 10, true, some (2, 2)⟩]
      ⟨.confirmed, none, [⟨1, 7, .pending⟩]⟩ 1 2 ⟨1, 7, .pending⟩ (by rfl) rfl
    rcases h.1 with ⟨v, hvpool, -, -, -, heq⟩ | heq
    · left
      have hv8 : v = ⟨8, true, true, 4, 10, true, some (2, 2)⟩ := by
        simpa using hvpool
      rw [heq, hv8]
      rfl
    · right
      rw [heq]
      rfl
  · have h := reject_rematches_or_escalates (fun _ _ => 3) (0, 0) (1, 1) []
      ⟨.confirmed, none, [⟨1, 7, .pending⟩]⟩ 1 2 ⟨1, 7, .pending⟩ (by rfl) rfl
    rcases h.1 with ⟨v, hvpool, -⟩ | heq
    · exact absurd hvpool (List.not_mem_nil v)
    · rw [heq]
      rfl

/-! ### Helper invariants for the delivery-request lifecycle (C2) -/

/-- Number of `accepted` delivery requests of a donation. -/
def acceptedCount (d : DonationState) : ℕ :=
  d.requests.countP (fun r => r.status = .accepted)

/-- Well-formedness delivered by the database: delivery-request primary
keys are unique. -/
def wfRequests (d : DonationState) : Prop :=
  (d.requests.map (fun r => r.rid)).Nodup

/-- The lifecycle invariant of the claim: at most one accepted request, and
none at all while no volunteer is assigned. -/
def acceptInv (d : DonationState) : Prop :=
  acceptedCount d ≤ 1 ∧ (d.volunteer = none → acceptedCount d = 0)

/-- One endpoint invocation on a donation's delivery-request set: an accept
or a reject (the latter with a database-fresh primary key for the new
request). -/
inductive Step : DonationState → DonationState → Prop where
  | accept (d : DonationState) (rid : ℕ) : Step d (acceptOp d rid)
  | reject (route : (ℚ × ℚ) → (ℚ × ℚ) → ℚ) (donorLoc recipientLoc : ℚ × ℚ)
      (pool : List VolunteerProfile) (d : DonationState) (rid fid : ℕ)
      (hfid : fid ∉ d.requests.map (fun r => r.rid)) :
      Step d (rejectOp route donorLoc recipientLoc pool d rid fid)

theorem acceptOp_preserves (d : DonationState) (rid : ℕ)
    (hwf : wfRequests d) (hinv : acceptInv d) :
    wfRequests (acceptOp d rid) ∧ acceptInv (acceptOp d rid) := by
  classical
  rcases hfind : d.requests.find? (fun r => r.rid = rid) with _ | req
  · simp [acceptOp, hfind, hwf, hinv]
  · by_cases hpend : req.status = .pending
    · by_cases hvol : d.volunteer.isSome
      · simp [acceptOp, hfind, hpend, hvol, hwf, hinv]
      · have hnone : d.volunteer = none := Option.not_isSome_iff_eq_none.mp hvol
        have hcount0 : acceptedCount d = 0 := hinv.2 hnone
        have hpost : acceptOp d rid =
            { d with
              volunteer := some req.volunteer_id,
              requests := d.requests.map fun r =>
                if r.rid = rid then { r with status := RStatus.accepted }
                else if r.status = .pending then { r with status := RStatus.expired }
                else r } := by
          unfold acceptOp
          rw [hfind]
          simp [hpend, hvol]
        rw [hpost]
        have hnoacc : ∀ r ∈ d.requests, ¬(r.status = RStatus.accepted) := by
          intro r hr
          have := List.countP_eq_zero.mp hcount0 r hr
          simpa using this
        constructor
        · unfold wfRequests at hwf ⊢
          simp only [List.map_map]
          have : ((fun r => r.rid) ∘ fun r =>
              if r.rid = rid then { r with status := RStatus.accepted }
              else if r.status = .pending then { r with status := RStatus.expired }
              else r) = fun (r : DeliveryRequest) => r.rid := by
            funext r
            by_cases h1 : r.rid = rid <;> by_cases h2 : r.status = .pending <;>
              simp [h1, h2]
          rw [this]
          exact hwf
        · have hreqmem : req ∈ d.requests := List.mem_of_find?_eq_some hfind
          have hreqid : req.rid = rid := by
            have := List.find?_some hfind
            simpa using this
          have hcnt : acceptedCount
              { d with
                volunteer := some req.volunteer_id,
                requests := d.requests.map fun r =>
                  if r.rid = rid then { r with status := RStatus.accepted }
                  else if r.status = .pending then { r with status := RStatus.expired }
                  else r } =
              d.requests.countP (fun r => r.rid = rid) := by
            unfold acceptedCount
            simp only [List.countP_map]
            apply List.countP_congr
            intro r hr
            by_cases h1 : r.rid = rid
            · simp [Function.comp, h1]
            · by_cases h2 : r.status = .pending <;>
                simp [Function.comp, h1, h2, hnoacc r hr]
          have hrid_count : d.requests.countP (fun r => r.rid = rid) = 1 := by
            have hcnteq : d.requests.countP (fun r => r.rid = rid) =
                (d.requests.map (fun r => r.rid)).count rid := by
              rw [List.count, List.countP_map]
              apply List.countP_congr
              intro r _
              simp [Function.comp, beq_iff_eq]
            rw [hcnteq]
            have hmem : rid ∈ d.requests.map (fun r => r.rid) :=
              hreqid ▸ List.mem_map_of_mem (fun r => r.rid) hreqmem
            exact List.count_eq_one_of_mem hwf hmem
          constructor
          · rw [hcnt, hrid_count]
          · intro hcontra
            simp at hcontra
    · simp [acceptOp, hfind, hpend, hwf, hinv]

theorem rejectOp_preserves (route : (ℚ × ℚ) → (ℚ × ℚ) → ℚ)
    (donorLoc recipientLoc : ℚ × ℚ) (pool : List VolunteerProfile)
    (d : DonationState) (rid fid : ℕ)
    (hfid : fid ∉ d.requests.map (fun r => r.rid))
    (hwf : wfRequests d) (hinv : acceptInv d) :
    wfRequests (rejectOp route donorLoc recipientLoc pool d rid fid) ∧
    acceptInv (rejectOp route donorLoc recipientLoc pool d rid fid) := by
  classical
  have hmark_rid : (mark_rejected d rid).map (fun r => r.rid) =
      d.requests.map (fun r => r.rid) := by
    simp only [mark_rejected, List.map_map]
    congr 1
    funext r
    by_cases h : r.rid = rid <;> simp [h]
  have hmark_cnt : (mark_rejected d rid).countP (fun r => r.status = .accepted) ≤
      acceptedCount d := by
    unfold acceptedCount mark_rejected
    rw [List.countP_map]
    apply List.countP_mono_left
    intro r _ h
    by_cases h1 : r.rid = rid
    · simp [Function.comp, h1] at h
    · simpa [Function.comp, h1] using h
  rcases hfind : d.requests.find? (fun r => r.rid = rid) with _ | req
  · simp [rejectOp, hfind, hwf, hinv]
  · by_cases hpend : req.status = .pending
    · have h1 := rejectOp_cases route donorLoc recipientLoc pool
        d rid fid req hfind hpend
      rcases h1.1 with ⟨v, -, -, -, -, heq⟩ | heq
      · rw [heq]
        constructor
        · unfold wfRequests
          simp only [List.map_append, hmark_rid, List.map_cons, List.map_nil]
          rw [List.nodup_append]
          refine ⟨hwf, List.nodup_singleton fid, ?_⟩
          intro a ha hb
          simp only [List.mem_singleton] at hb
          subst hb
          exact hfid ha
        · have hc : acceptedCount
              { d with requests := mark_rejected d rid ++ [⟨fid, v.vid, .pending⟩] } =
              (mark_rejected d rid).countP (fun r => r.status = .accepted) := by
            unfold acceptedCount
            simp [List.countP_append, List.countP_cons]
          unfold acceptInv
          rw [hc]
          constructor
          · exact le_trans hmark_cnt hinv.1
          · intro hnone
            simp only at hnone
            have := hinv.2 hnone
            omega
      · rw [heq]
        constructor
        · unfold wfRequests
          simpa [hmark_rid] using hwf
        · have hc : acceptedCount
              { d with
                status := DStatus.pending_manual_assignment,
                requests := mark_rejected d rid } =
              (mark_rejected d rid).countP (fun r => r.status = .accepted) := rfl
          unfold acceptInv
          rw [hc]
          constructor
          · exact le_trans hmark_cnt hinv.1
          · intro hnone
            simp only at hnone
            have := hinv.2 hnone
            omega
    · simp [rejectOp, hfind, hpend, hwf, hinv]

/-- C2: accepting a pending DeliveryRequest succeeds only while the donation
has no volunteer; on success the request's volunteer is assigned, the
request is marked accepted, and every other pending request of the donation
is force-expired; and along any sequence of accept/reject endpoint
invocations the donation keeps at most one accepted request (and none while
unassigned). -/
theorem accept_assigns_and_expires :
    (∀ (d : DonationState) (rid : ℕ), d.volunteer.isSome = true →
      acceptOp d rid = d) ∧
    (∀ (d : DonationState) (rid : ℕ) (req : DeliveryRequest),
      d.requests.find? (fun r => r.rid = rid) = some req →
      req.status = .pending → d.volunteer = none →
      (acceptOp d rid).volunteer = some req.volunteer_id ∧
      { req with status := RStatus.accepted } ∈ (acceptOp d rid).requests ∧
      (∀ r ∈ d.requests, r.rid ≠ rid → r.status = .pending →
        { r with status := RStatus.expired } ∈ (acceptOp d rid).requests) ∧
      (∀ r ∈ d.requests, r.rid ≠ rid → r.status ≠ .pending →
        r ∈ (acceptOp d rid).requests)) ∧
    (∀ d d' : DonationState, Relation.ReflTransGen Step d d' →
      wfRequests d → acceptInv d →
      wfRequests d' ∧ acceptInv d' ∧ acceptedCount d' ≤ 1) := by
  classical
  refine ⟨?_, ?_, ?_⟩
  · intro d rid hvol
    rcases hfind : d.requests.find? (fun r => r.rid = rid) with _ | req
    · simp [acceptOp, hfind]
    · by_cases hpend : req.status = .pending
      · simp [acceptOp, hfind, hpend, hvol]
      · simp [acceptOp, hfind, hpend]
  · intro d rid req hfind hpend hnone
    have hvol : ¬d.volunteer.isSome := by simp [hnone]
    have hpost : acceptOp d rid =
        { d with
          volunteer := some req.volunteer_id,
          requests := d.requests.map fun r =>
            if r.rid = rid then { r with status := RStatus.accepted }
            else if r.status = .pending then { r with status := RStatus.expired }
            else r } := by
      unfold acceptOp
      rw [hfind]
      simp [hpend, hvol]
    have hreqmem : req ∈ d.requests := List.mem_of_find?_eq_some hfind
    have hreqid : req.rid = rid := by
      have := List.find?_some hfind
      simpa using this
    rw [hpost]
    refine ⟨rfl, ?_, ?_, ?_⟩
    · have : { req with status := RStatus.accepted } =
          (fun r => if r.rid = rid then { r with status := RStatus.accepted }
            else if r.status = .pending then { r with status := RStatus.expired }
            else r) req := by
        simp [hreqid]
      rw [this]
      exact List.mem_map_of_mem _ hreqmem
    · intro r hr hne hp
      have : { r with status := RStatus.expired } =
          (fun r => if r.rid = rid then { r with status := RStatus.accepted }
            else if r.status = .pending then { r with status := RStatus.expired }
            else r) r := by
        simp [hne, hp]
      rw [this]
      exact List.mem_map_of_mem _ hr
    · intro r hr hne hp
      have : r =
          (fun r => if r.rid = rid then { r with status := RStatus.accepted }
            else if r.status = .pending then { r with status := RStatus.expired }
            else r) r := by
        simp [hne, hp]
      rw [this]
      exact List.mem_map_of_mem _ hr
  · intro d d' hsteps hwf hinv
    induction hsteps with
    | refl => exact ⟨hwf, hinv, hinv.1⟩
    | tail hstep hlast ih =>
      obtain ⟨hwf1, hinv1, -⟩ := ih
      cases hlast with
      | accept =>
        rename_i rid
        obtain ⟨hwf2, hinv2⟩ := acceptOp_preserves _ rid hwf1 hinv1
        exact ⟨hwf2, hinv2, hinv2.1⟩
      | reject =>
        rename_i route donorLoc recipientLoc pool rid fid hfid
        obtain ⟨hwf2, hinv2⟩ :=
          rejectOp_preserves route donorLoc recipientLoc pool _ rid fid hfid
            hwf1 hinv1
        exact ⟨hwf2, hinv2, hinv2.1⟩

/-- C2 witness: on a confirmed donation with pending requests 1 (volunteer 7)
and 2 (volunteer 8) and no volunteer assigned, accepting request 1 assigns
volunteer 7, marks request 1 accepted, expires request 2, and the one-step
sequence keeps the at-most-one-accepted invariant; and acceptance on an
already-assigned donation is refused. -/
theorem accept_assigns_and_expires_witness :
    (acceptOp ⟨.confirmed, none, [⟨1, 7, .pending⟩, ⟨2, 8, .pending⟩]⟩ 1).volunteer
      = some 7 ∧
    (⟨1, 7, .accepted⟩ : DeliveryRequest) ∈
      (acceptOp ⟨.confirmed, none, [⟨1, 7, .pending⟩, ⟨2, 8, .pending⟩]⟩ 1).requests ∧
    (⟨2, 8, .expired⟩ : DeliveryRequest) ∈
      (acceptOp ⟨.confirmed, none, [⟨1, 7, .pending⟩, ⟨2, 8, .pending⟩]⟩ 1).requests ∧
    acceptedCount (acceptOp ⟨.confirmed, none, [⟨1, 7, .pending⟩, ⟨2, 8, .pending⟩]⟩ 1) ≤ 1 ∧
    acceptOp ⟨.confirmed, some 9, [⟨1, 7, .pending⟩]⟩ 1 =
      ⟨.confirmed, some 9, [⟨1, 7, .pending⟩]⟩ := by
  have h := accept_assigns_and_expires
  have h2 := h.2.1 ⟨.confirmed, none, [⟨1, 7, .pending⟩, ⟨2, 8, .pending⟩]⟩ 1
    ⟨1, 7, .pending⟩ (by rfl) rfl rfl
  have h3 := h.2.2 ⟨.confirmed, none, [⟨1, 7, .pending⟩, ⟨2, 8, .pending⟩]⟩
    (acceptOp ⟨.confirmed, none, [⟨1, 7, .pending⟩, ⟨2, 8, .pending⟩]⟩ 1)
    (Relation.ReflTransGen.single
      (Step.accept ⟨.confirmed, none, [⟨1, 7, .pending⟩, ⟨2, 8, .pending⟩]⟩ 1))
    (by unfold wfRequests; decide)
    (by unfold acceptInv acceptedCount; exact ⟨by decide, fun _ => by decide⟩)
  refine ⟨h2.1, h2.2.1, ?_, h3.2.2, ?_⟩
  · have := h2.2.2.1 ⟨2, 8, .pending⟩ (by simp) (by decide) rfl
    simpa using this
  · exact h.1 ⟨.confirmed, some 9, [⟨1, 7, .pending⟩]⟩ 1 rfl

end ShareEat
